import Mathlib

/-!
Verification development for the JWW binary decoder of the `jww-web`
repository (`src/binary-reader.ts`, `src/jww-parser.ts`).

The TypeScript code is embedded shallowly:
* an `ArrayBuffer` is a `List Nat` of byte values; reads normalise with
  `% 256` exactly as `DataView.getUint8` would;
* the mutable `JwwBinaryReader` becomes a `Reader` state threaded through a
  monad `M` that models thrown exceptions (`Except String`) together with
  the reader state at throw time — TypeScript leaves the mutated offset in
  place when a method throws, and some catch sites keep using the reader,
  so the state on the error path is part of the semantics;
* decoded text is kept as the raw byte list (the Shift-JIS decode is
  injective and ASCII-transparent on every byte sequence any theorem below
  compares against, so string equality in the source is byte-list equality
  here); error messages are rendered through `strOfBytes`, which agrees
  with the decoder on ASCII;
* JS floating point division by the constants 100 and 1000 is represented
  by exact rational division, and angle conversion keeps the degree value
  (the `* π / 180` factor of `toRadians` is a fixed positive constant that
  no theorem below inspects).
-/

namespace JwwWeb

/-- The state of a `JwwBinaryReader`: the underlying buffer bytes and the
current offset. -/
structure Reader where
  buf : List Nat
  off : Nat
deriving DecidableEq, Repr

/-- Byte value at index `i` of a buffer (the `DataView.getUint8` view of the
buffer contents). -/
def byteAt (buf : List Nat) (i : Nat) : Nat := (buf.getD i 0) % 256

/-- Little-endian 16-bit value starting at index `i`. -/
def u16At (buf : List Nat) (i : Nat) : Nat := byteAt buf i + 256 * byteAt buf (i + 1)

/-- Little-endian 32-bit value starting at index `i`. -/
def u32At (buf : List Nat) (i : Nat) : Nat := u16At buf i + 65536 * u16At buf (i + 2)

/-- Two's-complement reading of an unsigned `w`-bit value. -/
def toSigned (w : Nat) (u : Nat) : Int :=
  if u < 2 ^ (w - 1) then (u : Int) else (u : Int) - 2 ^ w

/-- The bytes `buf[i .. i+n)`, normalised to byte values. -/
def sliceBytes (buf : List Nat) (i n : Nat) : List Nat :=
  ((buf.drop i).take n).map (fun b => b % 256)

/-- Truncation at the first NUL byte, as `readString` performs before
decoding. -/
def truncAtNul (l : List Nat) : List Nat := l.takeWhile (fun b => b ≠ 0)

/-- A computation over a `JwwBinaryReader`: it produces a value or a thrown
`Error` message, together with the reader state at return/throw time. -/
def M (α : Type) : Type := Reader → Except String α × Reader

def M.pure {α : Type} (a : α) : M α := fun r => (Except.ok a, r)

def M.bind {α β : Type} (x : M α) (f : α → M β) : M β := fun r =>
  match x r with
  | (Except.ok a, r') => f a r'
  | (Except.error e, r') => (Except.error e, r')

instance : Monad M where
  pure := M.pure
  bind := M.bind

/-- `throw new Error(e)`. -/
def throwM {α : Type} (e : String) : M α := fun r => (Except.error e, r)

/-- The message of every bounds failure in `binary-reader.ts`. -/
def eofMsg : String := "Unexpected end of file"

/-- `JwwBinaryReader.remaining` (can be negative after a failed `skip`). -/
def remaining (r : Reader) : Int := (r.buf.length : Int) - (r.off : Int)

/-- `JwwBinaryReader.isEOF`. -/
def isEOF (r : Reader) : Bool := r.buf.length ≤ r.off

/-- `JwwBinaryReader.readByte`: unsigned byte; bounds check before any
offset movement. -/
def readByte : M Nat := fun r =>
  if r.buf.length ≤ r.off then (Except.error eofMsg, r)
  else (Except.ok (byteAt r.buf r.off), ⟨r.buf, r.off + 1⟩)

/-- `JwwBinaryReader.readSByte`: signed byte. -/
def readSByte : M Int := fun r =>
  if r.buf.length ≤ r.off then (Except.error eofMsg, r)
  else (Except.ok (toSigned 8 (byteAt r.buf r.off)), ⟨r.buf, r.off + 1⟩)

/-- `JwwBinaryReader.readUInt16` (little-endian). -/
def readUInt16 : M Nat := fun r =>
  if r.buf.length < r.off + 2 then (Except.error eofMsg, r)
  else (Except.ok (u16At r.buf r.off), ⟨r.buf, r.off + 2⟩)

/-- `JwwBinaryReader.readInt16` (little-endian, two's complement). -/
def readInt16 : M Int := fun r =>
  if r.buf.length < r.off + 2 then (Except.error eofMsg, r)
  else (Except.ok (toSigned 16 (u16At r.buf r.off)), ⟨r.buf, r.off + 2⟩)

/-- `JwwBinaryReader.readUInt32` (little-endian). -/
def readUInt32 : M Nat := fun r =>
  if r.buf.length < r.off + 4 then (Except.error eofMsg, r)
  else (Except.ok (u32At r.buf r.off), ⟨r.buf, r.off + 4⟩)

/-- `JwwBinaryReader.readInt32` (little-endian, two's complement). -/
def readInt32 : M Int := fun r =>
  if r.buf.length < r.off + 4 then (Except.error eofMsg, r)
  else (Except.ok (toSigned 32 (u32At r.buf r.off)), ⟨r.buf, r.off + 4⟩)

/-- `JwwBinaryReader.readFloat`: only the cursor behaviour and the consumed
raw 32 bits are modelled; the IEEE-754 interpretation of those bits is
floating point and outside the shallow embedding (no claim inspects it). -/
def readFloat : M Nat := fun r =>
  if r.buf.length < r.off + 4 then (Except.error eofMsg, r)
  else (Except.ok (u32At r.buf r.off), ⟨r.buf, r.off + 4⟩)

/-- `JwwBinaryReader.readDouble`: raw 64 bits, as for `readFloat`. -/
def readDouble : M Nat := fun r =>
  if r.buf.length < r.off + 8 then (Except.error eofMsg, r)
  else (Except.ok (u32At r.buf r.off + 4294967296 * u32At r.buf (r.off + 4)),
        ⟨r.buf, r.off + 8⟩)

/-- `JwwBinaryReader.readString`: fixed-length text, bounds-checked, then
truncated at the first NUL before decoding.  The decoded string is kept as
its byte list. -/
def readString (n : Nat) : M (List Nat) := fun r =>
  if r.buf.length < r.off + n then (Except.error eofMsg, r)
  else (Except.ok (truncAtNul (sliceBytes r.buf r.off n)), ⟨r.buf, r.off + n⟩)

/-- Length of the NUL-scan loop of `readCString`: number of consecutive
bytes from `off` that are in bounds and non-NUL, capped at `maxLength`. -/
def cstrLen (buf : List Nat) : Nat → Nat → Nat
  | _, 0 => 0
  | off, m + 1 =>
    if off < buf.length ∧ byteAt buf off ≠ 0 then cstrLen buf (off + 1) m + 1 else 0

/-- `JwwBinaryReader.readCString`: scans to a NUL (or `maxLength`, or the
buffer end), returns the scanned bytes, and unconditionally advances one
further byte — so the final offset can be one past the buffer end.  It
never throws. -/
def readCString (maxLength : Nat := 256) : M (List Nat) := fun r =>
  let l := cstrLen r.buf r.off maxLength
  (Except.ok (sliceBytes r.buf r.off l), ⟨r.buf, r.off + l + 1⟩)

/-- `JwwBinaryReader.readBytes`. -/
def readBytes (n : Nat) : M (List Nat) := fun r =>
  if r.buf.length < r.off + n then (Except.error eofMsg, r)
  else (Except.ok (sliceBytes r.buf r.off n), ⟨r.buf, r.off + n⟩)

/-- `JwwBinaryReader.skip`: advances FIRST and only then bounds-checks, so a
failing skip leaves the offset past the end.  The argument is an `Int`
because one call site (`parseEntities` recovery) can pass a negative
number; a negative result below zero is clamped by `Int.toNat`, which no
reachable call exercises. -/
def skip (n : Int) : M Unit := fun r =>
  if (r.buf.length : Int) < (r.off : Int) + n then
    (Except.error eofMsg, ⟨r.buf, ((r.off : Int) + n).toNat⟩)
  else (Except.ok (), ⟨r.buf, ((r.off : Int) + n).toNat⟩)

/-- `JwwBinaryReader.align`: advance to the next multiple of `boundary`
(only ever called with 256). -/
def align (boundary : Nat) : M Unit := fun r =>
  let rem := r.off % boundary
  if rem ≠ 0 then skip ((boundary - rem : Nat) : Int) r else (Except.ok (), r)

/-- `JwwCoordinateConverter.toMillimeters`: divide by 100.  Exact rational
division stands in for JS float division; no claim depends on float
rounding. -/
def toMillimeters (v : Int) : ℚ := (v : ℚ) / 100

/-- `JwwCoordinateConverter.fromMillimeters`. -/
def fromMillimeters (q : ℚ) : ℚ := q * 100

/-- `JwwCoordinateConverter.toRadians` multiplies by π/180.  Angles are
represented by the degree value; the fixed positive factor π/180 is not
inspected by any claim. -/
def toRadiansDeg (v : Int) : ℚ := (v : ℚ)

/-! ## Data model (`types.ts`) and parser (`jww-parser.ts`) -/

/-- ASCII rendering of a byte list, used where the source interpolates a
decoded string into an error message; agrees with the Shift-JIS decoder on
the ASCII bytes every theorem below exercises. -/
def strOfBytes (l : List Nat) : String := String.mk (l.map Char.ofNat)

/-- Bytes of the constant `'JWW'`. -/
def JWW_SIGNATURE : List Nat := [74, 87, 87]

/-- Bytes of the constant `'JWS'`. -/
def JWS_SIGNATURE : List Nat := [74, 87, 83]

/-- Bytes of the legacy 3-byte magic `'Jww'`. -/
def JwwMagic3 : List Nat := [74, 119, 119]

/-- Bytes of the legacy continuation `'Data'`. -/
def DataMagic4 : List Nat := [68, 97, 116, 97]

/-- `Required<JwwParserOptions>` after the constructor applied its
defaults. -/
structure JwwParserOptions where
  encoding : String := "shift-jis"
  strictMode : Bool := false
  skipInvalidEntities : Bool := true
deriving DecidableEq, Repr

/-- `JwwHeader`.  `angleDeg` carries the stored degree value; the source
field `angle` is that value times π/180 (see `toRadiansDeg`). -/
structure JwwHeader where
  signature : List Nat
  version : Nat
  scale : ℚ
  offsetX : ℚ
  offsetY : ℚ
  angleDeg : ℚ
  layerCount : Nat
  groupCount : Nat
deriving DecidableEq, Repr

/-- `JwwLayer`.  The name is kept as decoded bytes. -/
structure JwwLayer where
  number : Nat
  name : List Nat
  visible : Bool
  locked : Bool
  color : Nat
  lineType : Nat
deriving DecidableEq, Repr

/-- The properties shared by every entity (`baseProps` in `parseEntity`). -/
structure EntityBase where
  layer : Nat
  color : Nat
  lineType : Nat
  lineWidth : ℚ
  group : Nat
deriving DecidableEq, Repr

structure JwwLine extends EntityBase where
  startX : ℚ
  startY : ℚ
  endX : ℚ
  endY : ℚ
deriving DecidableEq, Repr

structure JwwCircle extends EntityBase where
  centerX : ℚ
  centerY : ℚ
  radius : ℚ
deriving DecidableEq, Repr

structure JwwArc extends EntityBase where
  centerX : ℚ
  centerY : ℚ
  radius : ℚ
  startAngleDeg : ℚ
  endAngleDeg : ℚ
  clockwise : Bool
deriving DecidableEq, Repr

/-- `JwwText`.  In the source the two alignment fields are typed
`'left' | 'center' | 'right'` and `'bottom' | 'middle' | 'top'`, but the
runtime value is a JS array lookup that can be `undefined`; the model
therefore uses `Option String`, with `none` standing for `undefined`. -/
structure JwwText extends EntityBase where
  x : ℚ
  y : ℚ
  text : List Nat
  height : ℚ
  width : ℚ
  angleDeg : ℚ
  font : List Nat
  horizontalAlign : Option String
  verticalAlign : Option String
deriving DecidableEq, Repr

structure JwwEllipse extends EntityBase where
  centerX : ℚ
  centerY : ℚ
  radiusX : ℚ
  radiusY : ℚ
  rotationDeg : ℚ
deriving DecidableEq, Repr

structure JwwDimension extends EntityBase where
  startX : ℚ
  startY : ℚ
  endX : ℚ
  endY : ℚ
  textX : ℚ
  textY : ℚ
  value : ℚ
  text : List Nat
  dimensionType : String
deriving DecidableEq, Repr

structure JwwPolyline extends EntityBase where
  points : List (ℚ × ℚ)
  closed : Bool
deriving DecidableEq, Repr

/-- The entity variants the decoder can produce. -/
inductive JwwEntity where
  | line (e : JwwLine)
  | circle (e : JwwCircle)
  | arc (e : JwwArc)
  | text (e : JwwText)
  | ellipse (e : JwwEllipse)
  | dimension (e : JwwDimension)
  | polyline (e : JwwPolyline)
deriving DecidableEq, Repr

structure JwwDocument where
  header : JwwHeader
  layers : List JwwLayer
  entities : List JwwEntity
deriving DecidableEq, Repr

/-- Whitespace bytes trimmed by `String.trim` on the single-byte text the
claims exercise. -/
def isJsSpaceByte (b : Nat) : Bool :=
  b = 32 ∨ b = 9 ∨ b = 10 ∨ b = 11 ∨ b = 12 ∨ b = 13

/-- `.trim()` on a decoded byte string (single-byte whitespace; no claim
depends on multi-byte whitespace forms). -/
def trimBytes (l : List Nat) : List Nat :=
  ((l.dropWhile isJsSpaceByte).reverse.dropWhile isJsSpaceByte).reverse

/-- Bytes of the synthesized name `Layer ${i}`. -/
def defaultLayerName (i : Nat) : List Nat :=
  (("Layer " ++ toString i).data).map Char.toNat

/-- The default layer record substituted when one layer iteration throws. -/
def defaultLayer (i : Nat) : JwwLayer :=
  { number := i, name := defaultLayerName i, visible := true, locked := false,
    color := 0, lineType := 0 }

/-- The straight-line tail of `JwwParser.parseHeader` after the signature
has been settled: version, reserved byte, scale, origin offset, rotation,
reserved pair, layer/group counts (`|| 16` normalization), then
`align(256)`. -/
def parseHeaderAfterSig (signature : List Nat) : M JwwHeader := do
  let version ← readUInt16
  skip 1
  let scaleNum ← readInt32
  let scaleDen ← readInt32
  let scale : ℚ := if scaleDen ≠ 0 then (scaleNum : ℚ) / (scaleDen : ℚ) else 1
  let offX ← readInt32
  let offY ← readInt32
  let angle ← readInt16
  skip 2
  let layerCount ← readByte
  let groupCount ← readByte
  align 256
  Pure.pure
    { signature := signature
      version := version
      scale := scale
      offsetX := toMillimeters offX
      offsetY := toMillimeters offY
      angleDeg := toRadiansDeg angle
      layerCount := if layerCount = 0 then 16 else layerCount
      groupCount := if groupCount = 0 then 16 else groupCount }

/-- `JwwParser.parseHeader`: signature dispatch, then the common tail. -/
def parseHeader : M JwwHeader := do
  let sig3 ← readString 3
  if sig3 = JwwMagic3 then do
    let sig4 ← readString 4
    if sig4 = DataMagic4 then do
      skip 1
      parseHeaderAfterSig JwwMagic3
    else
      throwM ("Invalid file signature: " ++ strOfBytes sig3 ++ strOfBytes sig4)
  else if sig3 ≠ JWW_SIGNATURE ∧ sig3 ≠ JWS_SIGNATURE then
    throwM ("Invalid file signature: " ++ strOfBytes sig3)
  else parseHeaderAfterSig sig3

/-- The body of one iteration of the `parseLayers` loop (its `try` block). -/
def parseOneLayer (i : Nat) : M JwwLayer := do
  let flags ← readByte
  let visible := flags &&& 1 ≠ 0
  let locked := flags &&& 2 ≠ 0
  let color ← readByte
  let lineType ← readByte
  skip 1
  let rawName ← readString 32
  let name := trimBytes rawName
  Pure.pure
    { number := i
      name := if name = [] then defaultLayerName i else name
      visible := visible
      locked := locked
      color := color
      lineType := lineType }

/-- The `parseLayers` loop from index `i`, `n` iterations left: each
iteration catches any failure and substitutes `defaultLayer i`, continuing
with the reader state the failure left behind. -/
def parseLayersAux (i : Nat) : Nat → Reader → List JwwLayer × Reader
  | 0, r => ([], r)
  | n + 1, r =>
    match parseOneLayer i r with
    | (Except.ok l, r') =>
      let p := parseLayersAux (i + 1) n r'
      (l :: p.1, p.2)
    | (Except.error _, r') =>
      let p := parseLayersAux (i + 1) n r'
      (defaultLayer i :: p.1, p.2)

/-- `JwwParser.parseLayers`: never throws. -/
def parseLayers (header : JwwHeader) : M (List JwwLayer) := fun r =>
  let p := parseLayersAux 0 header.layerCount r
  (Except.ok p.1, p.2)

/-- `JwwParser.parseLine`. -/
def parseLine (base : EntityBase) : M JwwLine := do
  let startX ← readInt32
  let startY ← readInt32
  let endX ← readInt32
  let endY ← readInt32
  Pure.pure
    { toEntityBase := base
      startX := toMillimeters startX
      startY := toMillimeters startY
      endX := toMillimeters endX
      endY := toMillimeters endY }

/-- `JwwParser.parseCircle`. -/
def parseCircle (base : EntityBase) : M JwwCircle := do
  let centerX ← readInt32
  let centerY ← readInt32
  let radius ← readInt32
  Pure.pure
    { toEntityBase := base
      centerX := toMillimeters centerX
      centerY := toMillimeters centerY
      radius := toMillimeters radius }

/-- `JwwParser.parseArc`. -/
def parseArc (base : EntityBase) : M JwwArc := do
  let centerX ← readInt32
  let centerY ← readInt32
  let radius ← readInt32
  let startAngle ← readInt16
  let endAngle ← readInt16
  let flags ← readByte
  Pure.pure
    { toEntityBase := base
      centerX := toMillimeters centerX
      centerY := toMillimeters centerY
      radius := toMillimeters radius
      startAngleDeg := toRadiansDeg startAngle
      endAngleDeg := toRadiansDeg endAngle
      clockwise := flags &&& 1 ≠ 0 }

/-- The horizontal-alignment lookup table of `parseText`. -/
def hAlignNames : List String := ["left", "center", "right"]

/-- The vertical-alignment lookup table of `parseText`. -/
def vAlignNames : List String := ["bottom", "middle", "top"]

/-- Bytes of the default font `MS Gothic`. -/
def msGothic : List Nat := ("MS Gothic".data).map Char.toNat

/-- `JwwParser.parseText`.  The alignment lookups are JS array indexing:
index 3 yields `undefined`, i.e. `none`. -/
def parseText (base : EntityBase) : M JwwText := do
  let x ← readInt32
  let y ← readInt32
  let height ← readInt16
  let width ← readInt16
  let angle ← readInt16
  let alignFlags ← readByte
  let horizontalAlign := hAlignNames.get? (alignFlags &&& 3)
  let verticalAlign := vAlignNames.get? ((alignFlags >>> 2) &&& 3)
  let rawFont ← readString 32
  let font := trimBytes rawFont
  let textLength ← readUInt16
  let text ← readString textLength
  Pure.pure
    { toEntityBase := base
      x := toMillimeters x
      y := toMillimeters y
      text := text
      height := toMillimeters height
      width := toMillimeters width
      angleDeg := toRadiansDeg angle
      font := if font = [] then msGothic else font
      horizontalAlign := horizontalAlign
      verticalAlign := verticalAlign }

/-- `JwwParser.parseEllipse`. -/
def parseEllipse (base : EntityBase) : M JwwEllipse := do
  let centerX ← readInt32
  let centerY ← readInt32
  let radiusX ← readInt32
  let radiusY ← readInt32
  let rotation ← readInt16
  Pure.pure
    { toEntityBase := base
      centerX := toMillimeters centerX
      centerY := toMillimeters centerY
      radiusX := toMillimeters radiusX
      radiusY := toMillimeters radiusY
      rotationDeg := toRadiansDeg rotation }

/-- The dimension-type lookup table of `parseDimension`. -/
def dimensionTypes : List String := ["linear", "aligned", "angular", "radius", "diameter"]

/-- Stand-in for `value.toFixed(2)` in `parseDimension`: some byte string
determined by the value.  Decimal formatting details are not modelled; no
claim inspects this text. -/
def toFixed2 (q : ℚ) : List Nat := ((toString q).data).map Char.toNat

/-- `JwwParser.parseDimension`.  The type lookup `dimensionTypes[dimType]`
falls back to `'linear'` when out of range (`|| 'linear'`). -/
def parseDimension (base : EntityBase) : M JwwDimension := do
  let startX ← readInt32
  let startY ← readInt32
  let endX ← readInt32
  let endY ← readInt32
  let textX ← readInt32
  let textY ← readInt32
  let rawValue ← readInt32
  let value : ℚ := (rawValue : ℚ) / 1000
  let dimType ← readByte
  let dimensionType := (dimensionTypes.get? dimType).getD "linear"
  let textLength ← readUInt16
  let text ← if textLength > 0 then readString textLength else Pure.pure (toFixed2 value)
  Pure.pure
    { toEntityBase := base
      startX := toMillimeters startX
      startY := toMillimeters startY
      endX := toMillimeters endX
      endY := toMillimeters endY
      textX := toMillimeters textX
      textY := toMillimeters textY
      value := value
      text := text
      dimensionType := dimensionType }

/-- The point loop of `parsePolyline`. -/
def readPoints : Nat → M (List (ℚ × ℚ))
  | 0 => Pure.pure []
  | n + 1 => do
    let x ← readInt32
    let y ← readInt32
    let rest ← readPoints n
    Pure.pure ((toMillimeters x, toMillimeters y) :: rest)

/-- `JwwParser.parsePolyline`. -/
def parsePolyline (base : EntityBase) : M JwwPolyline := do
  let pointCount ← readUInt16
  let flags ← readByte
  let closed := flags &&& 1 ≠ 0
  skip 1
  let points ← readPoints pointCount
  Pure.pure { toEntityBase := base, points := points, closed := closed }

/-- `JwwParser.parseEntity`: reads the 7-byte record header, then
dispatches on the tag.  Tag 0 returns `none` (no entity); an unsupported
tag skips a fixed 32 bytes and returns `none`. -/
def parseEntity : M (Option JwwEntity) := do
  let entityType ← readByte
  let layer ← readByte
  let color ← readByte
  let lineType ← readByte
  let lineWidth ← readUInt16
  let group ← readByte
  skip 1
  let base : EntityBase :=
    { layer := layer, color := color, lineType := lineType,
      lineWidth := (lineWidth : ℚ) / 100, group := group }
  match entityType with
  | 0 => Pure.pure none
  | 1 => do let e ← parseLine base; Pure.pure (some (JwwEntity.line e))
  | 2 => do let e ← parseCircle base; Pure.pure (some (JwwEntity.circle e))
  | 3 => do let e ← parseArc base; Pure.pure (some (JwwEntity.arc e))
  | 4 => do let e ← parseText base; Pure.pure (some (JwwEntity.text e))
  | 5 => do let e ← parseEllipse base; Pure.pure (some (JwwEntity.ellipse e))
  | 6 => do let e ← parseDimension base; Pure.pure (some (JwwEntity.dimension e))
  | 7 => do let e ← parsePolyline base; Pure.pure (some (JwwEntity.polyline e))
  | _ => do
    skip 32
    Pure.pure none

/-- The `parseEntities` while-loop, with fuel.  `parseEntities` supplies
`buf.length + 1` fuel, which is never exhausted because every continuing
iteration advances the offset (see `parseEntitiesAux` step lemmas).  A
failing `parseEntity` is caught exactly when `skipInvalidEntities` is set:
the recovery then skips `min 64 (remaining)` bytes from the state the
failure left behind; otherwise the failure propagates. -/
def parseEntitiesAux (opts : JwwParserOptions) :
    Nat → List JwwEntity → Reader → Except String (List JwwEntity) × Reader
  | 0, acc, r => (Except.ok acc, r)
  | fuel + 1, acc, r =>
    if isEOF r = false ∧ 4 < remaining r then
      match parseEntity r with
      | (Except.ok oe, r') =>
        parseEntitiesAux opts fuel
          (match oe with
           | some e => acc ++ [e]
           | none => acc) r'
      | (Except.error e, r') =>
        if opts.skipInvalidEntities then
          match skip (min 64 (remaining r')) r' with
          | (Except.ok _, r'') => parseEntitiesAux opts fuel acc r''
          | (Except.error e2, r'') => (Except.error e2, r'')
        else (Except.error e, r')
    else (Except.ok acc, r)

/-- `JwwParser.parseEntities`. -/
def parseEntities (opts : JwwParserOptions) (_header : JwwHeader) : M (List JwwEntity) :=
  fun r => parseEntitiesAux opts (r.buf.length + 1) [] r

/-- The `try` body of `JwwParser.parse`: header, then layers, then
entities. -/
def parseDoc (opts : JwwParserOptions) : M JwwDocument := do
  let header ← parseHeader
  let layers ← parseLayers header
  let entities ← parseEntities opts header
  Pure.pure { header := header, layers := layers, entities := entities }

/-- `JwwParser.parse`: on any failure, rethrows the raw error when
`strictMode` is set, otherwise wraps it in a single descriptive error. -/
def parse (opts : JwwParserOptions) (buf : List Nat) : Except String JwwDocument :=
  match parseDoc opts ⟨buf, 0⟩ with
  | (Except.ok d, _) => Except.ok d
  | (Except.error e, _) =>
    if opts.strictMode then Except.error e
    else Except.error ("Failed to parse JWW file: " ++ e)

/-- `JwwParser.validate` (static): requires at least 8 bytes, then matches
the 3-byte magics, or the legacy `'Jww' + 'Data'` form.  The surrounding
try/catch of the source maps any exception to `false`; the corresponding
error branches appear below. -/
def validate (buf : List Nat) : Bool :=
  if buf.length < 8 then false
  else
    match readString 3 ⟨buf, 0⟩ with
    | (Except.ok sig3, r') =>
      if sig3 = JWW_SIGNATURE ∨ sig3 = JWS_SIGNATURE then true
      else if sig3 = JwwMagic3 then
        match readString 4 r' with
        | (Except.ok sig4, _) => sig4 = DataMagic4
        | (Except.error _, _) => false
      else false
    | (Except.error _, _) => false

/-- The result record of `JwwParser.getFileInfo`. -/
structure FileInfo where
  signature : List Nat
  version : Nat
  fileSize : Nat
deriving DecidableEq, Repr

/-- The reads performed by `JwwParser.getFileInfo`. -/
def getFileInfoM (buf : List Nat) : M FileInfo := do
  let signature ← readString 3
  let version ← readUInt16
  Pure.pure { signature := signature, version := version, fileSize := buf.length }

/-- `JwwParser.getFileInfo` (static): no try/catch — a bounds failure in
either read propagates to the caller. -/
def getFileInfo (buf : List Nat) : Except String FileInfo :=
  (getFileInfoM buf ⟨buf, 0⟩).1

/-! ## Run and characterization lemmas for the monad and the cursor -/

theorem M.run_bind_ok {α β : Type} {x : M α} {f : α → M β} {r r1 : Reader} {a : α}
    (h : x r = (Except.ok a, r1)) : (x >>= f) r = f a r1 := by
  show M.bind x f r = f a r1
  unfold M.bind
  rw [h]

theorem M.run_bind_err {α β : Type} {x : M α} {f : α → M β} {r r1 : Reader} {e : String}
    (h : x r = (Except.error e, r1)) : (x >>= f) r = (Except.error e, r1) := by
  show M.bind x f r = (Except.error e, r1)
  unfold M.bind
  rw [h]

theorem M.run_pure {α : Type} (a : α) (r : Reader) :
    (Pure.pure a : M α) r = (Except.ok a, r) := rfl

theorem M.bind_ok_elim {α β : Type} {x : M α} {f : α → M β} {r r2 : Reader} {b : β}
    (h : (x >>= f) r = (Except.ok b, r2)) :
    ∃ a r1, x r = (Except.ok a, r1) ∧ f a r1 = (Except.ok b, r2) := by
  have h' : M.bind x f r = (Except.ok b, r2) := h
  unfold M.bind at h'
  rcases hx : x r with ⟨exc, r1⟩
  rw [hx] at h'
  cases exc with
  | ok a => exact ⟨a, r1, rfl, h'⟩
  | error e => simp at h'

theorem M.pure_ok_elim {α : Type} {a b : α} {r r2 : Reader}
    (h : (Pure.pure a : M α) r = (Except.ok b, r2)) : b = a ∧ r2 = r := by
  have h' : (Except.ok a, r) = ((Except.ok b : Except String α), r2) := h
  simp at h'
  exact ⟨h'.1.symm, h'.2.symm⟩

theorem throwM_ok_elim {α : Type} {e : String} {a : α} {r r2 : Reader}
    (h : (throwM e : M α) r = (Except.ok a, r2)) : False := by
  have h' : ((Except.error e : Except String α), r) = (Except.ok a, r2) := h
  simp at h'

theorem readByte_run_ok {r : Reader} (h : r.off < r.buf.length) :
    readByte r = (Except.ok (byteAt r.buf r.off), ⟨r.buf, r.off + 1⟩) := by
  unfold readByte
  rw [if_neg (by omega)]

theorem readByte_run_err {r : Reader} (h : r.buf.length ≤ r.off) :
    readByte r = (Except.error eofMsg, r) := by
  unfold readByte
  rw [if_pos h]

theorem readByte_ok_elim {r r1 : Reader} {v : Nat} (h : readByte r = (Except.ok v, r1)) :
    r.off < r.buf.length ∧ v = byteAt r.buf r.off ∧ r1 = ⟨r.buf, r.off + 1⟩ := by
  unfold readByte at h
  split at h
  · simp at h
  · next hc =>
    simp only [Prod.mk.injEq, Except.ok.injEq] at h
    exact ⟨by omega, h.1.symm, h.2.symm⟩

theorem readUInt16_run_ok {r : Reader} (h : r.off + 2 ≤ r.buf.length) :
    readUInt16 r = (Except.ok (u16At r.buf r.off), ⟨r.buf, r.off + 2⟩) := by
  unfold readUInt16
  rw [if_neg (by omega)]

theorem readUInt16_run_err {r : Reader} (h : r.buf.length < r.off + 2) :
    readUInt16 r = (Except.error eofMsg, r) := by
  unfold readUInt16
  rw [if_pos h]

theorem readUInt16_ok_elim {r r1 : Reader} {v : Nat} (h : readUInt16 r = (Except.ok v, r1)) :
    r.off + 2 ≤ r.buf.length ∧ v = u16At r.buf r.off ∧ r1 = ⟨r.buf, r.off + 2⟩ := by
  unfold readUInt16 at h
  split at h
  · simp at h
  · next hc =>
    simp only [Prod.mk.injEq, Except.ok.injEq] at h
    exact ⟨by omega, h.1.symm, h.2.symm⟩

theorem readInt16_run_ok {r : Reader} (h : r.off + 2 ≤ r.buf.length) :
    readInt16 r = (Except.ok (toSigned 16 (u16At r.buf r.off)), ⟨r.buf, r.off + 2⟩) := by
  unfold readInt16
  rw [if_neg (by omega)]

theorem readInt16_ok_elim {r r1 : Reader} {v : Int} (h : readInt16 r = (Except.ok v, r1)) :
    r.off + 2 ≤ r.buf.length ∧ v = toSigned 16 (u16At r.buf r.off) ∧ r1 = ⟨r.buf, r.off + 2⟩ := by
  unfold readInt16 at h
  split at h
  · simp at h
  · next hc =>
    simp only [Prod.mk.injEq, Except.ok.injEq] at h
    exact ⟨by omega, h.1.symm, h.2.symm⟩

theorem readInt32_run_ok {r : Reader} (h : r.off + 4 ≤ r.buf.length) :
    readInt32 r = (Except.ok (toSigned 32 (u32At r.buf r.off)), ⟨r.buf, r.off + 4⟩) := by
  unfold readInt32
  rw [if_neg (by omega)]

theorem readInt32_run_err {r : Reader} (h : r.buf.length < r.off + 4) :
    readInt32 r = (Except.error eofMsg, r) := by
  unfold readInt32
  rw [if_pos h]

theorem readInt32_ok_elim {r r1 : Reader} {v : Int} (h : readInt32 r = (Except.ok v, r1)) :
    r.off + 4 ≤ r.buf.length ∧ v = toSigned 32 (u32At r.buf r.off) ∧ r1 = ⟨r.buf, r.off + 4⟩ := by
  unfold readInt32 at h
  split at h
  · simp at h
  · next hc =>
    simp only [Prod.mk.injEq, Except.ok.injEq] at h
    exact ⟨by omega, h.1.symm, h.2.symm⟩

theorem readString_run_ok {r : Reader} {n : Nat} (h : r.off + n ≤ r.buf.length) :
    readString n r = (Except.ok (truncAtNul (sliceBytes r.buf r.off n)), ⟨r.buf, r.off + n⟩) := by
  unfold readString
  rw [if_neg (by omega)]

theorem readString_run_err {r : Reader} {n : Nat} (h : r.buf.length < r.off + n) :
    readString n r = (Except.error eofMsg, r) := by
  unfold readString
  rw [if_pos h]

theorem readString_ok_elim {r r1 : Reader} {n : Nat} {v : List Nat}
    (h : readString n r = (Except.ok v, r1)) :
    r.off + n ≤ r.buf.length ∧ v = truncAtNul (sliceBytes r.buf r.off n) ∧
      r1 = ⟨r.buf, r.off + n⟩ := by
  unfold readString at h
  split at h
  · simp at h
  · next hc =>
    simp only [Prod.mk.injEq, Except.ok.injEq] at h
    exact ⟨by omega, h.1.symm, h.2.symm⟩

theorem skip_ok_elim {r r1 : Reader} {n : Int} (h : skip n r = (Except.ok (), r1)) :
    (r.off : Int) + n ≤ (r.buf.length : Int) ∧ r1 = ⟨r.buf, ((r.off : Int) + n).toNat⟩ := by
  unfold skip at h
  split at h
  · simp at h
  · next hc =>
    simp only [Prod.mk.injEq] at h
    exact ⟨by omega, h.2.symm⟩

/-- Success of the header's `align(256)` call from a misaligned offset
below 256 forces the buffer to hold at least 256 bytes. -/
theorem align256_ok_elim {r r1 : Reader} (h0 : 0 < r.off) (hlt : r.off < 256)
    (h : align 256 r = (Except.ok (), r1)) : 256 ≤ r.buf.length ∧ r1 = ⟨r.buf, 256⟩ := by
  unfold align at h
  rw [Nat.mod_eq_of_lt hlt] at h
  rw [if_pos (by omega)] at h
  obtain ⟨h1, h2⟩ := skip_ok_elim h
  refine ⟨by omega, ?_⟩
  rw [h2]
  simp only [Reader.mk.injEq, true_and]
  omega

/-- The `|| 16` normalization applied to a stored count byte. -/
def normCount (b : Nat) : Nat := if b = 0 then 16 else b

/-- Success characterization of the header tail started at offset `k`:
the buffer must reach the 256-byte boundary, the reader ends there, and
the counts are the normalized bytes at `k+23` and `k+24`. -/
theorem parseHeaderAfterSig_ok_char {sig buf : List Nat} {k : Nat}
    {hdr : JwwHeader} {r' : Reader} (hk : 0 < k) (hk2 : k + 25 < 256)
    (h : parseHeaderAfterSig sig ⟨buf, k⟩ = (Except.ok hdr, r')) :
    256 ≤ buf.length ∧ r' = ⟨buf, 256⟩ ∧ hdr.signature = sig ∧
      hdr.layerCount = normCount (byteAt buf (k + 23)) ∧
      hdr.groupCount = normCount (byteAt buf (k + 24)) := by
  unfold parseHeaderAfterSig at h
  obtain ⟨version, r1, h1, h⟩ := M.bind_ok_elim h
  obtain ⟨hb1, hv1, hr1⟩ := readUInt16_ok_elim h1
  subst hr1
  obtain ⟨u1, r2, h2, h⟩ := M.bind_ok_elim h
  obtain ⟨hb2, hr2⟩ := skip_ok_elim h2
  have hr2' : r2 = ⟨buf, k + 3⟩ := by rw [hr2]; rfl
  subst hr2'
  obtain ⟨scaleNum, r3, h3, h⟩ := M.bind_ok_elim h
  obtain ⟨hb3, hv3, hr3⟩ := readInt32_ok_elim h3
  subst hr3
  obtain ⟨scaleDen, r4, h4, h⟩ := M.bind_ok_elim h
  obtain ⟨hb4, hv4, hr4⟩ := readInt32_ok_elim h4
  subst hr4
  obtain ⟨offX, r5, h5, h⟩ := M.bind_ok_elim h
  obtain ⟨hb5, hv5, hr5⟩ := readInt32_ok_elim h5
  subst hr5
  obtain ⟨offY, r6, h6, h⟩ := M.bind_ok_elim h
  obtain ⟨hb6, hv6, hr6⟩ := readInt32_ok_elim h6
  subst hr6
  obtain ⟨angle, r7, h7, h⟩ := M.bind_ok_elim h
  obtain ⟨hb7, hv7, hr7⟩ := readInt16_ok_elim h7
  subst hr7
  obtain ⟨u2, r8, h8, h⟩ := M.bind_ok_elim h
  obtain ⟨hb8, hr8⟩ := skip_ok_elim h8
  have hr8' : r8 = ⟨buf, k + 23⟩ := by rw [hr8]; rfl
  subst hr8'
  obtain ⟨layerCount, r9, h9, h⟩ := M.bind_ok_elim h
  obtain ⟨hb9, hv9, hr9⟩ := readByte_ok_elim h9
  subst hr9
  obtain ⟨groupCount, r10, h10, h⟩ := M.bind_ok_elim h
  obtain ⟨hb10, hv10, hr10⟩ := readByte_ok_elim h10
  subst hr10
  obtain ⟨u3, r11, h11, h⟩ := M.bind_ok_elim h
  obtain ⟨h256, hr11⟩ := align256_ok_elim (r := ⟨buf, k + 23 + 1 + 1⟩)
    (by show 0 < k + 23 + 1 + 1; omega) (by show k + 23 + 1 + 1 < 256; omega) h11
  subst hr11
  obtain ⟨hhdr, hrr⟩ := M.pure_ok_elim h
  subst hhdr
  subst hrr
  refine ⟨h256, rfl, rfl, ?_, ?_⟩
  · rw [hv9]
    rfl
  · rw [hv10]
    rfl

/-- Success characterization of `parseHeader` from offset 0: at least 256
bytes, reader left at 256, and the stored layer-count byte sits at offset
26 (standard signature) or 31 (legacy `JwwData` signature). -/
theorem parseHeader_ok_char {buf : List Nat} {hdr : JwwHeader} {r' : Reader}
    (h : parseHeader ⟨buf, 0⟩ = (Except.ok hdr, r')) :
    256 ≤ buf.length ∧ r' = ⟨buf, 256⟩ ∧
      ((truncAtNul (sliceBytes buf 0 3) = JwwMagic3 ∧
        truncAtNul (sliceBytes buf 3 4) = DataMagic4 ∧
        hdr.signature = JwwMagic3 ∧
        hdr.layerCount = normCount (byteAt buf 31) ∧
        hdr.groupCount = normCount (byteAt buf 32)) ∨
       ((truncAtNul (sliceBytes buf 0 3) = JWW_SIGNATURE ∨
         truncAtNul (sliceBytes buf 0 3) = JWS_SIGNATURE) ∧
        hdr.signature = truncAtNul (sliceBytes buf 0 3) ∧
        hdr.layerCount = normCount (byteAt buf 26) ∧
        hdr.groupCount = normCount (byteAt buf 27))) := by
  unfold parseHeader at h
  obtain ⟨sig3, r1, h1, h⟩ := M.bind_ok_elim h
  obtain ⟨hb1, hv1, hr1⟩ := readString_ok_elim h1
  subst hr1
  subst hv1
  by_cases hc : truncAtNul (sliceBytes buf 0 3) = JwwMagic3
  · rw [if_pos hc] at h
    obtain ⟨sig4, r2, h2, h⟩ := M.bind_ok_elim h
    obtain ⟨hb2, hv2, hr2⟩ := readString_ok_elim h2
    subst hr2
    subst hv2
    by_cases hc4 : truncAtNul (sliceBytes buf (0 + 3) 4) = DataMagic4
    · rw [if_pos hc4] at h
      obtain ⟨u1, r3, h3, h⟩ := M.bind_ok_elim h
      obtain ⟨hb3, hr3⟩ := skip_ok_elim h3
      have hr3' : r3 = ⟨buf, 8⟩ := by rw [hr3]; rfl
      subst hr3'
      obtain ⟨h256, hr', hs, hl, hg⟩ :=
        parseHeaderAfterSig_ok_char (k := 8) (by omega) (by omega) h
      refine ⟨h256, hr', Or.inl ⟨hc, ?_, hs, ?_, ?_⟩⟩
      · simpa using hc4
      · simpa using hl
      · simpa using hg
    · rw [if_neg hc4] at h
      exact absurd h (by intro hh; exact throwM_ok_elim hh)
  · rw [if_neg hc] at h
    by_cases hc2 : truncAtNul (sliceBytes buf 0 3) ≠ JWW_SIGNATURE ∧
        truncAtNul (sliceBytes buf 0 3) ≠ JWS_SIGNATURE
    · rw [if_pos hc2] at h
      exact absurd h (by intro hh; exact throwM_ok_elim hh)
    · rw [if_neg hc2] at h
      obtain ⟨h256, hr', hs, hl, hg⟩ :=
        parseHeaderAfterSig_ok_char (k := 3) (by omega) (by omega) h
      push_neg at hc2
      refine ⟨h256, hr', Or.inr ⟨?_, hs, ?_, ?_⟩⟩
      · by_cases hw : truncAtNul (sliceBytes buf 0 3) = JWW_SIGNATURE
        · exact Or.inl hw
        · exact Or.inr (hc2 hw)
      · simpa using hl
      · simpa using hg

/-- `parse` on a failing `parseDoc`: strict mode rethrows the raw message,
otherwise it is wrapped. -/
theorem parse_run_err {opts : JwwParserOptions} {buf : List Nat} {e : String} {rd : Reader}
    (hd : parseDoc opts ⟨buf, 0⟩ = (Except.error e, rd)) :
    parse opts buf =
      Except.error (if opts.strictMode then e else "Failed to parse JWW file: " ++ e) := by
  unfold parse
  rw [hd]
  by_cases hs : opts.strictMode <;> simp [hs]

/-- `parse` on a successful `parseDoc`. -/
theorem parse_run_ok {opts : JwwParserOptions} {buf : List Nat} {d : JwwDocument} {rd : Reader}
    (hd : parseDoc opts ⟨buf, 0⟩ = (Except.ok d, rd)) :
    parse opts buf = Except.ok d := by
  unfold parse
  rw [hd]

/-- A successful `parse` comes from a successful `parseDoc`. -/
theorem parse_ok_elim {opts : JwwParserOptions} {buf : List Nat} {doc : JwwDocument}
    (h : parse opts buf = Except.ok doc) :
    ∃ rd, parseDoc opts ⟨buf, 0⟩ = (Except.ok doc, rd) := by
  unfold parse at h
  rcases hd : parseDoc opts ⟨buf, 0⟩ with ⟨exc, rd⟩
  rw [hd] at h
  cases exc with
  | ok d =>
    refine ⟨rd, ?_⟩
    have h' : Except.ok d = (Except.ok doc : Except String JwwDocument) := h
    rw [h']
  | error e =>
    exfalso
    by_cases hs : opts.strictMode <;> simp [hs] at h

/-! ## Claim C5 -/

/-- C5: for every option setting, `parse` fails on every buffer shorter
than 256 bytes — the header decoder's `align(256)` forces the cursor to the
256-byte boundary and that bounds-checked skip (or an earlier header read)
cannot succeed on a short buffer; equivalently `parse` can succeed only on
buffers of at least 256 bytes. -/
theorem parse_requires_256_bytes (opts : JwwParserOptions) (buf : List Nat)
    (h : buf.length < 256) : ∃ e, parse opts buf = Except.error e := by
  rcases hd : parseDoc opts ⟨buf, 0⟩ with ⟨exc, rd⟩
  cases exc with
  | ok d =>
    exfalso
    unfold parseDoc at hd
    obtain ⟨hdr, r1, hh, _⟩ := M.bind_ok_elim hd
    obtain ⟨h256, _⟩ := parseHeader_ok_char hh
    omega
  | error e =>
    exact ⟨_, parse_run_err hd⟩

/-- Witness for C5: the empty buffer. -/
theorem parse_requires_256_bytes_witness :
    ∃ e, parse {} [] = Except.error e :=
  parse_requires_256_bytes {} [] (by decide)

/-! ## Claim C6 -/

/-- The layer loop always produces exactly as many entries as it was asked
for. -/
theorem parseLayersAux_length (i n : Nat) (r : Reader) :
    (parseLayersAux i n r).1.length = n := by
  induction n generalizing i r with
  | zero => rfl
  | succ n ih =>
    unfold parseLayersAux
    rcases hp : parseOneLayer i r with ⟨exc, r1⟩
    cases exc <;> simp [ih]

/-- `parseLayers` never throws and runs the loop from index 0. -/
theorem parseLayers_run (hd : JwwHeader) (r : Reader) :
    parseLayers hd r =
      (Except.ok (parseLayersAux 0 hd.layerCount r).1, (parseLayersAux 0 hd.layerCount r).2) :=
  rfl

/-- C6: the layer loop runs exactly `header.layerCount` times and always
yields exactly that many entries; a failing iteration is replaced by the
default layer for that index and the loop continues from the state the
failure left, independent of any option; `parseHeader` normalizes a stored
layer-count byte of 0 to 16 (the byte sits at offset 26 or 31 depending on
the signature form); hence any parsed document has exactly
`header.layerCount` layers, 16 of them when the stored byte was 0. -/
theorem layer_table_properties :
    (∀ (hd : JwwHeader) (r : Reader), ∃ ls r2,
        parseLayers hd r = (Except.ok ls, r2) ∧ ls.length = hd.layerCount)
    ∧ (∀ (i n : Nat) (r r1 : Reader) (e : String),
        parseOneLayer i r = (Except.error e, r1) →
        (parseLayersAux i (n + 1) r).1 = defaultLayer i :: (parseLayersAux (i + 1) n r1).1)
    ∧ (∀ (buf : List Nat) (hdr : JwwHeader) (r2 : Reader),
        parseHeader ⟨buf, 0⟩ = (Except.ok hdr, r2) →
        hdr.layerCount ≠ 0 ∧
          (hdr.layerCount = normCount (byteAt buf 26) ∨
           hdr.layerCount = normCount (byteAt buf 31)))
    ∧ normCount 0 = 16
    ∧ (∀ (opts : JwwParserOptions) (buf : List Nat) (doc : JwwDocument),
        parse opts buf = Except.ok doc → doc.layers.length = doc.header.layerCount) := by
  refine ⟨?_, ?_, ?_, rfl, ?_⟩
  · intro hd r
    exact ⟨_, _, parseLayers_run hd r, parseLayersAux_length 0 hd.layerCount r⟩
  · intro i n r r1 e h
    conv_lhs => rw [parseLayersAux]
    rw [h]
  · intro buf hdr r2 h
    obtain ⟨-, -, hcase⟩ := parseHeader_ok_char h
    rcases hcase with ⟨-, -, -, hl, -⟩ | ⟨-, -, hl, -⟩
    · refine ⟨?_, Or.inr hl⟩
      rw [hl]
      unfold normCount
      split <;> omega
    · refine ⟨?_, Or.inl hl⟩
      rw [hl]
      unfold normCount
      split <;> omega
  · intro opts buf doc h
    obtain ⟨rd, hd⟩ := parse_ok_elim h
    unfold parseDoc at hd
    obtain ⟨hdr, r1, hh, hd⟩ := M.bind_ok_elim hd
    obtain ⟨ls, r2, hl, hd⟩ := M.bind_ok_elim hd
    obtain ⟨es, r3, he, hd⟩ := M.bind_ok_elim hd
    obtain ⟨hdoc, -⟩ := M.pure_ok_elim hd
    subst hdoc
    have hls : ls = (parseLayersAux 0 hdr.layerCount r1).1 := by
      have h12 := (parseLayers_run hdr r1).symm.trans hl
      injection h12 with ha hb
      injection ha with ha'
      exact ha'.symm
    simp only [hls]
    exact parseLayersAux_length 0 hdr.layerCount r1

/-- A 256-byte buffer holding a well-formed standard header (version 11,
scale 1/1, stored layer/group count bytes 16). -/
def c6buf : List Nat :=
  JWW_SIGNATURE ++ [11, 0] ++ [0] ++ [1, 0, 0, 0] ++ [1, 0, 0, 0] ++
    List.replicate 8 0 ++ [0, 0] ++ [0, 0] ++ [16] ++ [16] ++ List.replicate 228 0

/-- The header decoded from `c6buf`.  The rational fields are written in
the same arithmetic shape the decoder produces, so that kernel-level
definitional equality never has to normalize a rational number. -/
def c6hdr : JwwHeader :=
  { signature := JWW_SIGNATURE, version := 11, scale := (1 : ℚ) / 1,
    offsetX := toMillimeters 0, offsetY := toMillimeters 0,
    angleDeg := 0, layerCount := 16, groupCount := 16 }

/-- The document decoded from `c6buf`: every layer iteration fails at the
buffer end and is replaced by the default layer. -/
def c6doc : JwwDocument :=
  { header := c6hdr, layers := (List.range 16).map defaultLayer, entities := [] }

set_option maxRecDepth 10000 in
/-- Witness for C6: a failing layer slot yields the default layer and the
loop continues; a decoded header has a non-zero normalized count; a parsed
document has exactly `layerCount` layers. -/
theorem layer_table_properties_witness :
    ((parseLayersAux 0 (0 + 1) ⟨[], 0⟩).1 =
        defaultLayer 0 :: (parseLayersAux (0 + 1) 0 ⟨[], 0⟩).1)
    ∧ (c6hdr.layerCount ≠ 0 ∧
        (c6hdr.layerCount = normCount (byteAt c6buf 26) ∨
         c6hdr.layerCount = normCount (byteAt c6buf 31)))
    ∧ c6doc.layers.length = c6doc.header.layerCount :=
  ⟨layer_table_properties.2.1 0 0 ⟨[], 0⟩ ⟨[], 0⟩ eofMsg (by rfl),
   layer_table_properties.2.2.1 c6buf c6hdr ⟨c6buf, 256⟩ (by rfl),
   layer_table_properties.2.2.2.2 {} c6buf c6doc (by rfl)⟩

/-! ## Entity-stream lemmas -/

theorem readByte_run_ok' {buf : List Nat} {off : Nat} (h : off < buf.length) :
    readByte ⟨buf, off⟩ = (Except.ok (byteAt buf off), ⟨buf, off + 1⟩) := by
  unfold readByte
  dsimp only
  rw [if_neg (by omega)]

theorem readUInt16_run_ok' {buf : List Nat} {off : Nat} (h : off + 2 ≤ buf.length) :
    readUInt16 ⟨buf, off⟩ = (Except.ok (u16At buf off), ⟨buf, off + 2⟩) := by
  unfold readUInt16
  dsimp only
  rw [if_neg (by omega)]

theorem readInt16_run_ok' {buf : List Nat} {off : Nat} (h : off + 2 ≤ buf.length) :
    readInt16 ⟨buf, off⟩ = (Except.ok (toSigned 16 (u16At buf off)), ⟨buf, off + 2⟩) := by
  unfold readInt16
  dsimp only
  rw [if_neg (by omega)]

theorem readInt32_run_ok' {buf : List Nat} {off : Nat} (h : off + 4 ≤ buf.length) :
    readInt32 ⟨buf, off⟩ = (Except.ok (toSigned 32 (u32At buf off)), ⟨buf, off + 4⟩) := by
  unfold readInt32
  dsimp only
  rw [if_neg (by omega)]

theorem readInt32_run_err' {buf : List Nat} {off : Nat} (h : buf.length < off + 4) :
    readInt32 ⟨buf, off⟩ = (Except.error eofMsg, ⟨buf, off⟩) := by
  unfold readInt32
  dsimp only
  rw [if_pos (by omega)]

theorem readString_run_ok' {buf : List Nat} {off n : Nat} (h : off + n ≤ buf.length) :
    readString n ⟨buf, off⟩ =
      (Except.ok (truncAtNul (sliceBytes buf off n)), ⟨buf, off + n⟩) := by
  unfold readString
  dsimp only
  rw [if_neg (by omega)]

theorem skip1_run_ok {buf : List Nat} {off : Nat} (h : off + 1 ≤ buf.length) :
    skip 1 ⟨buf, off⟩ = (Except.ok (), ⟨buf, off + 1⟩) := by
  unfold skip
  dsimp only
  rw [if_neg (by omega)]
  rfl

theorem skip32_run_ok {buf : List Nat} {off : Nat} (h : off + 32 ≤ buf.length) :
    skip 32 ⟨buf, off⟩ = (Except.ok (), ⟨buf, off + 32⟩) := by
  unfold skip
  dsimp only
  rw [if_neg (by omega)]
  rfl

theorem skip32_run_err {buf : List Nat} {off : Nat} (h : buf.length < off + 32) :
    skip 32 ⟨buf, off⟩ = (Except.error eofMsg, ⟨buf, off + 32⟩) := by
  unfold skip
  dsimp only
  rw [if_pos (by omega)]
  rfl

/-- A record whose tag byte is 0 (terminator): the 8-byte record header is
consumed, no entity is produced, and no payload is read. -/
theorem parseEntity_term {buf : List Nat} {off : Nat}
    (ht : byteAt buf off = 0) (h8 : off + 8 ≤ buf.length) :
    parseEntity ⟨buf, off⟩ = (Except.ok none, ⟨buf, off + 8⟩) := by
  unfold parseEntity
  refine (M.run_bind_ok (readByte_run_ok' (by omega))).trans ?_
  refine (M.run_bind_ok (readByte_run_ok' (by omega))).trans ?_
  refine (M.run_bind_ok (readByte_run_ok' (by omega))).trans ?_
  refine (M.run_bind_ok (readByte_run_ok' (by omega))).trans ?_
  refine (M.run_bind_ok (readUInt16_run_ok' (by omega))).trans ?_
  refine (M.run_bind_ok (readByte_run_ok' (by omega))).trans ?_
  refine (M.run_bind_ok (skip1_run_ok (by omega))).trans ?_
  rw [ht]
  rfl

/-- A record whose tag byte is not in `0..7`, with the full fixed skip in
bounds: the 8-byte header plus 32 skipped bytes are consumed and no entity
is produced. -/
theorem parseEntity_unknown_ok {buf : List Nat} {off n : Nat}
    (ht : byteAt buf off = n + 8) (h40 : off + 40 ≤ buf.length) :
    parseEntity ⟨buf, off⟩ = (Except.ok none, ⟨buf, off + 40⟩) := by
  unfold parseEntity
  refine (M.run_bind_ok (readByte_run_ok' (by omega))).trans ?_
  refine (M.run_bind_ok (readByte_run_ok' (by omega))).trans ?_
  refine (M.run_bind_ok (readByte_run_ok' (by omega))).trans ?_
  refine (M.run_bind_ok (readByte_run_ok' (by omega))).trans ?_
  refine (M.run_bind_ok (readUInt16_run_ok' (by omega))).trans ?_
  refine (M.run_bind_ok (readByte_run_ok' (by omega))).trans ?_
  refine (M.run_bind_ok (skip1_run_ok (by omega))).trans ?_
  rw [ht]
  refine (M.run_bind_ok (skip32_run_ok (by omega))).trans ?_
  rfl

/-- A record whose tag byte is not in `0..7` but with fewer than 32 bytes
left after the 8-byte header: the fixed `skip(32)` itself throws, leaving
the offset past the buffer end. -/
theorem parseEntity_unknown_err {buf : List Nat} {off n : Nat}
    (ht : byteAt buf off = n + 8) (h8 : off + 8 ≤ buf.length)
    (h40 : buf.length < off + 40) :
    parseEntity ⟨buf, off⟩ = (Except.error eofMsg, ⟨buf, off + 40⟩) := by
  unfold parseEntity
  refine (M.run_bind_ok (readByte_run_ok' (by omega))).trans ?_
  refine (M.run_bind_ok (readByte_run_ok' (by omega))).trans ?_
  refine (M.run_bind_ok (readByte_run_ok' (by omega))).trans ?_
  refine (M.run_bind_ok (readByte_run_ok' (by omega))).trans ?_
  refine (M.run_bind_ok (readUInt16_run_ok' (by omega))).trans ?_
  refine (M.run_bind_ok (readByte_run_ok' (by omega))).trans ?_
  refine (M.run_bind_ok (skip1_run_ok (by omega))).trans ?_
  rw [ht]
  refine (M.run_bind_err (skip32_run_err (by omega))).trans ?_
  rfl

/-- The loop guard of `parseEntities` holds when at least 5 bytes remain. -/
theorem entGuard_of_5 {buf : List Nat} {off : Nat} (h : off + 5 ≤ buf.length) :
    isEOF ⟨buf, off⟩ = false ∧ 4 < remaining ⟨buf, off⟩ := by
  constructor
  · unfold isEOF
    dsimp only
    simp only [decide_eq_false_iff_not]
    omega
  · unfold remaining
    dsimp only
    omega

/-- Loop step on a successful `parseEntity`: append the entity (when one
was produced) and continue from the state it left. -/
theorem parseEntitiesAux_step_ok {opts : JwwParserOptions} {fuel : Nat}
    {acc : List JwwEntity} {buf : List Nat} {off : Nat} {oe : Option JwwEntity} {r1 : Reader}
    (h5 : off + 5 ≤ buf.length) (hp : parseEntity ⟨buf, off⟩ = (Except.ok oe, r1)) :
    parseEntitiesAux opts (fuel + 1) acc ⟨buf, off⟩ =
      parseEntitiesAux opts fuel
        (match oe with
         | some e => acc ++ [e]
         | none => acc) r1 := by
  conv_lhs => rw [parseEntitiesAux]
  rw [if_pos (entGuard_of_5 h5)]
  simp only [hp]
  cases oe <;> rfl

/-- Loop step on a failing `parseEntity` with `skipInvalidEntities = false`
(no matter what `strictMode` is): the failure propagates out of the loop. -/
theorem parseEntitiesAux_step_err {opts : JwwParserOptions} {fuel : Nat}
    {acc : List JwwEntity} {buf : List Nat} {off : Nat} {e : String} {r1 : Reader}
    (hskip : opts.skipInvalidEntities = false)
    (h5 : off + 5 ≤ buf.length) (hp : parseEntity ⟨buf, off⟩ = (Except.error e, r1)) :
    parseEntitiesAux opts (fuel + 1) acc ⟨buf, off⟩ = (Except.error e, r1) := by
  conv_lhs => rw [parseEntitiesAux]
  rw [if_pos (entGuard_of_5 h5)]
  simp only [hp, hskip]
  rfl

/-- The recovery skip of `parseEntities` never throws: it lands at
`min (off + 64) length`, also when the failure state is past the end. -/
theorem recoverySkip_run (r1 : Reader) :
    skip (min 64 (remaining r1)) r1 =
      (Except.ok (), ⟨r1.buf, min (r1.off + 64) r1.buf.length⟩) := by
  unfold skip remaining
  rw [if_neg (by omega)]
  congr 1
  congr 1
  omega

/-- Loop step on a failing `parseEntity` with `skipInvalidEntities = true`
(no matter what `strictMode` is): discard the record, skip
`min 64 remaining` bytes from the failure state, and continue. -/
theorem parseEntitiesAux_step_recover {opts : JwwParserOptions} {fuel : Nat}
    {acc : List JwwEntity} {buf : List Nat} {off : Nat} {e : String} {r1 : Reader}
    (hskip : opts.skipInvalidEntities = true)
    (h5 : off + 5 ≤ buf.length) (hp : parseEntity ⟨buf, off⟩ = (Except.error e, r1)) :
    parseEntitiesAux opts (fuel + 1) acc ⟨buf, off⟩ =
      parseEntitiesAux opts fuel acc ⟨r1.buf, min (r1.off + 64) r1.buf.length⟩ := by
  conv_lhs => rw [parseEntitiesAux]
  rw [if_pos (entGuard_of_5 h5)]
  simp only [hp, hskip, recoverySkip_run]
  rfl

/-! ## Claim C1 -/

/-- A header value for invoking the entity decoder directly (`parseEntities`
ignores its header argument). -/
def anyHeader : JwwHeader :=
  { signature := JWW_SIGNATURE, version := 0, scale := 1, offsetX := 0, offsetY := 0,
    angleDeg := 0, layerCount := 16, groupCount := 16 }

/-- A terminator record (tag 0) followed by a complete line record
(tag 1, lineWidth 100, all coordinates 0). -/
def c1buf : List Nat :=
  [0, 0, 0, 0, 0, 0, 0, 0] ++ [1, 0, 0, 0, 100, 0, 0, 0] ++ List.replicate 16 0

/-- The line entity decoded from the record that FOLLOWS the terminator in
`c1buf`. -/
def c1line : JwwLine :=
  { layer := 0, color := 0, lineType := 0, lineWidth := ((100 : Nat) : ℚ) / 100, group := 0,
    startX := toMillimeters 0, startY := toMillimeters 0,
    endX := toMillimeters 0, endY := toMillimeters 0 }

set_option maxRecDepth 4000 in
/-- C1 counterexample: `c1buf` starts with a 0x00-tag (terminator) record,
yet the entity decoder reads on and appends the following line record —
decoding does not stop at the terminator. -/
theorem terminator_does_not_stop_counterexample :
    parseEntities {} anyHeader ⟨c1buf, 0⟩ =
        (Except.ok [JwwEntity.line c1line], ⟨c1buf, 32⟩)
    ∧ c1buf.take 8 = List.replicate 8 0 := ⟨rfl, by decide⟩

/-- C1 (amended): a 0x00-tag record consumes its 8-byte record header and
appends nothing, but entity decoding does NOT stop there: the loop
continues with the bytes that follow. -/
theorem terminator_record_continues (opts : JwwParserOptions) (fuel : Nat)
    (acc : List JwwEntity) (buf : List Nat) (off : Nat)
    (ht : byteAt buf off = 0) (h8 : off + 8 ≤ buf.length) :
    parseEntitiesAux opts (fuel + 1) acc ⟨buf, off⟩ =
      parseEntitiesAux opts fuel acc ⟨buf, off + 8⟩ :=
  parseEntitiesAux_step_ok (by omega) (parseEntity_term ht h8)

/-- Witness for C1's amended theorem on `c1buf`. -/
theorem terminator_record_continues_witness :
    parseEntitiesAux {} (1 + 1) [] ⟨c1buf, 0⟩ = parseEntitiesAux {} 1 [] ⟨c1buf, 8⟩ :=
  terminator_record_continues {} 1 [] c1buf 0 (by decide) (by decide)

/-! ## Claim C2 -/

/-- A full file: 256-byte header, 16 all-zero layer records, then a line
record truncated in the middle of its payload (8 of 16 payload bytes). -/
def c2buf : List Nat :=
  c6buf ++ List.replicate 576 0 ++ [1, 0, 0, 0, 100, 0, 0, 0] ++ List.replicate 8 0

/-- The layers decoded from the all-zero layer region of `c2buf`. -/
def c2layers : List JwwLayer :=
  (List.range 16).map fun i =>
    { number := i, name := defaultLayerName i, visible := false, locked := false,
      color := 0, lineType := 0 }

/-- The document decoded from `c2buf` when the truncated entity is
recovered: no entities at all. -/
def c2doc : JwwDocument := { header := c6hdr, layers := c2layers, entities := [] }

/-- The record-header properties of the truncated line record in `c2buf`. -/
def c2base : EntityBase :=
  { layer := 0, color := 0, lineType := 0, lineWidth := ((100 : Nat) : ℚ) / 100, group := 0 }

set_option maxRecDepth 20000 in
/-- C2 counterexample: with `strictMode = true` and
`skipInvalidEntities = true`, a failure inside the line payload decoder
(second conjunct) does NOT abort: `parse` succeeds, silently dropping the
truncated record — `strictMode` is not consulted by the entity loop. -/
theorem strict_mode_entity_failure_counterexample :
    parse { encoding := "shift-jis", strictMode := true, skipInvalidEntities := true } c2buf
        = Except.ok c2doc
    ∧ (parseLine c2base ⟨c2buf, 840⟩).1 = Except.error eofMsg := ⟨rfl, rfl⟩

/-- C2 (amended): whether an entity-payload failure aborts document
assembly is governed solely by `skipInvalidEntities` — `strictMode` is not
consulted by the entity loop: the failure propagates exactly when
`skipInvalidEntities = false` and is recovered (skip of
`min 64 remaining`) exactly when it is `true`; and when `strictMode =
false` a propagated failure makes `parse` raise a wrapped error rather
than silently dropping data. -/
theorem entity_failure_policy :
    (∀ (opts : JwwParserOptions) (fuel : Nat) (acc : List JwwEntity) (buf : List Nat)
        (off : Nat) (e : String) (r1 : Reader),
        opts.skipInvalidEntities = false → off + 5 ≤ buf.length →
        parseEntity ⟨buf, off⟩ = (Except.error e, r1) →
        parseEntitiesAux opts (fuel + 1) acc ⟨buf, off⟩ = (Except.error e, r1))
    ∧ (∀ (opts : JwwParserOptions) (fuel : Nat) (acc : List JwwEntity) (buf : List Nat)
        (off : Nat) (e : String) (r1 : Reader),
        opts.skipInvalidEntities = true → off + 5 ≤ buf.length →
        parseEntity ⟨buf, off⟩ = (Except.error e, r1) →
        parseEntitiesAux opts (fuel + 1) acc ⟨buf, off⟩ =
          parseEntitiesAux opts fuel acc ⟨r1.buf, min (r1.off + 64) r1.buf.length⟩)
    ∧ (∀ (opts : JwwParserOptions) (buf : List Nat) (e : String) (rd : Reader),
        opts.strictMode = false → parseDoc opts ⟨buf, 0⟩ = (Except.error e, rd) →
        parse opts buf = Except.error ("Failed to parse JWW file: " ++ e)) := by
  refine ⟨?_, ?_, ?_⟩
  · intro opts fuel acc buf off e r1 hskip h5 hp
    exact parseEntitiesAux_step_err hskip h5 hp
  · intro opts fuel acc buf off e r1 hskip h5 hp
    exact parseEntitiesAux_step_recover hskip h5 hp
  · intro opts buf e rd hs hd
    have h := parse_run_err hd
    rw [hs] at h
    simpa using h

/-- Witness for C2's amended theorem: a lone truncated line record with
`skipInvalidEntities = false` aborts the loop even under `strictMode =
true`; and a failing parse with `strictMode = false` raises the wrapped
message. -/
theorem entity_failure_policy_witness :
    (parseEntitiesAux ⟨"shift-jis", true, false⟩ (0 + 1) []
        ⟨[1, 0, 0, 0, 0, 0, 0, 0], 0⟩ =
      (Except.error eofMsg, ⟨[1, 0, 0, 0, 0, 0, 0, 0], 8⟩))
    ∧ parse {} [] = Except.error ("Failed to parse JWW file: " ++ eofMsg) :=
  ⟨entity_failure_policy.1 ⟨"shift-jis", true, false⟩ 0 [] [1, 0, 0, 0, 0, 0, 0, 0] 0
      eofMsg ⟨[1, 0, 0, 0, 0, 0, 0, 0], 8⟩ rfl (by decide) (by rfl),
   entity_failure_policy.2.2 {} [] eofMsg ⟨[], 0⟩ rfl (by rfl)⟩

/-! ## Claim C7 -/

/-- A full file: 256-byte header, 16 all-zero layer records, then a record
with the unsupported tag 0xFF and only 10 bytes after its 8-byte header. -/
def c7buf : List Nat :=
  c6buf ++ List.replicate 576 0 ++ [255, 0, 0, 0, 0, 0, 0, 0] ++ List.replicate 10 0

set_option maxRecDepth 20000 in
/-- C7 counterexample: an unknown-tag record with fewer than 32 bytes
remaining after its header DOES surface as an exception and makes `parse`
fail when `skipInvalidEntities = false`. -/
theorem unknown_tag_fatal_counterexample :
    parse { encoding := "shift-jis", strictMode := false, skipInvalidEntities := false } c7buf
        = Except.error ("Failed to parse JWW file: " ++ eofMsg)
    ∧ byteAt c7buf 832 = 255 := ⟨rfl, by decide⟩

/-- C7 (amended): a record with a tag outside `0x00..0x07` consumes its
8-byte record header plus a fixed 32-byte block and appends nothing when
those 32 bytes exist; with fewer than 32 bytes remaining the fixed skip
itself throws (offset left past the end), and with
`skipInvalidEntities = false` that failure aborts the entity loop — an
unknown tag is then fatal to `parse`. -/
theorem unknown_tag_policy :
    (∀ (buf : List Nat) (off n : Nat), byteAt buf off = n + 8 → off + 40 ≤ buf.length →
        parseEntity ⟨buf, off⟩ = (Except.ok none, ⟨buf, off + 40⟩))
    ∧ (∀ (buf : List Nat) (off n : Nat), byteAt buf off = n + 8 → off + 8 ≤ buf.length →
        buf.length < off + 40 →
        parseEntity ⟨buf, off⟩ = (Except.error eofMsg, ⟨buf, off + 40⟩))
    ∧ (∀ (opts : JwwParserOptions) (fuel : Nat) (acc : List JwwEntity) (buf : List Nat)
        (off n : Nat), opts.skipInvalidEntities = false →
        byteAt buf off = n + 8 → off + 8 ≤ buf.length → buf.length < off + 40 →
        parseEntitiesAux opts (fuel + 1) acc ⟨buf, off⟩ =
          (Except.error eofMsg, ⟨buf, off + 40⟩)) := by
  refine ⟨?_, ?_, ?_⟩
  · intro buf off n ht h40
    exact parseEntity_unknown_ok ht h40
  · intro buf off n ht h8 h40
    exact parseEntity_unknown_err ht h8 h40
  · intro opts fuel acc buf off n hskip ht h8 h40
    exact parseEntitiesAux_step_err hskip (by omega) (parseEntity_unknown_err ht h8 h40)

/-- Witness for C7's amended theorem: a 0xFF record with its full 32-byte
block present is skipped silently; the same record cut short throws, and
with `skipInvalidEntities = false` the loop fails. -/
theorem unknown_tag_policy_witness :
    (parseEntity ⟨[255, 0, 0, 0, 0, 0, 0, 0] ++ List.replicate 32 0, 0⟩ =
        (Except.ok none, ⟨[255, 0, 0, 0, 0, 0, 0, 0] ++ List.replicate 32 0, 0 + 40⟩))
    ∧ (parseEntitiesAux ⟨"shift-jis", false, false⟩ (0 + 1) []
          ⟨[255, 0, 0, 0, 0, 0, 0, 0], 0⟩ =
        (Except.error eofMsg, ⟨[255, 0, 0, 0, 0, 0, 0, 0], 0 + 40⟩)) :=
  ⟨unknown_tag_policy.1 ([255, 0, 0, 0, 0, 0, 0, 0] ++ List.replicate 32 0) 0 247
      (by decide) (by decide),
   unknown_tag_policy.2.2 ⟨"shift-jis", false, false⟩ 0 [] [255, 0, 0, 0, 0, 0, 0, 0] 0 247
      rfl (by decide) (by decide) (by decide)⟩

/-! ## Claim C9 -/

/-- C9 counterexample: with `strictMode = true`, `parse` rethrows the raw
low-level error unwrapped — the signature error surfaces as-is, not inside
the descriptive wrapper. -/
theorem strict_mode_no_wrap_counterexample :
    parse { encoding := "shift-jis", strictMode := true, skipInvalidEntities := true }
        [88, 88, 88] = Except.error ("Invalid file signature: XXX")
    ∧ ("Invalid file signature: XXX") ≠
        ("Failed to parse JWW file: " ++ "Invalid file signature: XXX") := ⟨rfl, by decide⟩

/-- C9 (amended): when `strictMode = false` every parse failure is wrapped
in the single descriptive message, which strictly extends the underlying
cause; when `strictMode = true` the underlying error propagates
unwrapped. -/
theorem parse_error_wrapping (opts : JwwParserOptions) (buf : List Nat) (e : String)
    (rd : Reader) (hd : parseDoc opts ⟨buf, 0⟩ = (Except.error e, rd)) :
    (opts.strictMode = false →
      parse opts buf = Except.error ("Failed to parse JWW file: " ++ e)
        ∧ ("Failed to parse JWW file: " ++ e) ≠ e)
    ∧ (opts.strictMode = true → parse opts buf = Except.error e) := by
  constructor
  · intro hs
    constructor
    · have h := parse_run_err hd
      rw [hs] at h
      simpa using h
    · intro hcontra
      have hlen := congrArg String.length hcontra
      rw [String.length_append] at hlen
      have h26 : ("Failed to parse JWW file: ").length = 26 := rfl
      omega
  · intro hs
    have h := parse_run_err hd
    rw [hs] at h
    simpa using h

/-- Witness for C9's amended theorem: an invalid signature with default
options surfaces wrapped. -/
theorem parse_error_wrapping_witness :
    parse {} [88, 88, 88] =
        Except.error ("Failed to parse JWW file: " ++ "Invalid file signature: XXX")
    ∧ ("Failed to parse JWW file: " ++ "Invalid file signature: XXX") ≠
        ("Invalid file signature: XXX") :=
  (parse_error_wrapping {} [88, 88, 88] ("Invalid file signature: XXX")
    ⟨[88, 88, 88], 3⟩ (by rfl)).1 rfl

/-! ## Claim C3 -/

/-- C3 counterexample: the exact 7-byte legacy magic is rejected, because
`validate` first requires at least 8 bytes. -/
theorem validate_seven_byte_magic_counterexample :
    validate (JwwMagic3 ++ DataMagic4) = false
    ∧ (JwwMagic3 ++ DataMagic4).length = 7
    ∧ truncAtNul (sliceBytes (JwwMagic3 ++ DataMagic4) 0 3) = JwwMagic3
    ∧ truncAtNul (sliceBytes (JwwMagic3 ++ DataMagic4) 3 4) = DataMagic4 := by decide

theorem readString_run_err' {buf : List Nat} {off n : Nat} (h : buf.length < off + n) :
    readString n ⟨buf, off⟩ = (Except.error eofMsg, ⟨buf, off⟩) := by
  unfold readString
  dsimp only
  rw [if_pos (by omega)]

theorem readUInt16_run_err' {buf : List Nat} {off : Nat} (h : buf.length < off + 2) :
    readUInt16 ⟨buf, off⟩ = (Except.error eofMsg, ⟨buf, off⟩) := by
  unfold readUInt16
  dsimp only
  rw [if_pos (by omega)]

/-- The Boolean outcome of `validate` as a predicate on the length and the
first seven bytes. -/
theorem validate_iff (buf : List Nat) :
    validate buf = true ↔
      8 ≤ buf.length ∧
        (truncAtNul (sliceBytes buf 0 3) = JWW_SIGNATURE ∨
         truncAtNul (sliceBytes buf 0 3) = JWS_SIGNATURE ∨
         (truncAtNul (sliceBytes buf 0 3) = JwwMagic3 ∧
          truncAtNul (sliceBytes buf 3 4) = DataMagic4)) := by
  unfold validate
  by_cases h8 : buf.length < 8
  · rw [if_pos h8]
    simp only [Bool.false_eq_true, false_iff]
    intro hcontra
    omega
  · rw [if_neg h8]
    rw [readString_run_ok' (by omega : 0 + 3 ≤ buf.length)]
    simp only [Nat.zero_add]
    by_cases h1 : truncAtNul (sliceBytes buf 0 3) = JWW_SIGNATURE ∨
        truncAtNul (sliceBytes buf 0 3) = JwwMagic3 ∨
        truncAtNul (sliceBytes buf 0 3) = JWS_SIGNATURE
    all_goals by_cases h2 : truncAtNul (sliceBytes buf 0 3) = JwwMagic3
    · rw [if_neg (by rintro (h | h) <;> simp_all [JWW_SIGNATURE, JWS_SIGNATURE, JwwMagic3])]
      rw [if_pos h2]
      rw [readString_run_ok' (by omega : 3 + 4 ≤ buf.length)]
      simp only [decide_eq_true_eq]
      constructor
      · intro hd
        exact ⟨by omega, Or.inr (Or.inr ⟨h2, hd⟩)⟩
      · rintro ⟨-, (h | h | ⟨-, h⟩)⟩ <;> simp_all [JWW_SIGNATURE, JWS_SIGNATURE, JwwMagic3]
    · by_cases hJ : truncAtNul (sliceBytes buf 0 3) = JWW_SIGNATURE ∨
          truncAtNul (sliceBytes buf 0 3) = JWS_SIGNATURE
      · rw [if_pos hJ]
        simp only [true_iff]
        exact ⟨by omega, by tauto⟩
      · rw [if_neg hJ, if_neg h2]
        simp only [Bool.false_eq_true, false_iff]
        rintro ⟨-, (h | h | ⟨h, -⟩)⟩ <;> tauto
    · exact absurd (Or.inr (Or.inl h2)) h1
    · rw [if_neg (by tauto), if_neg h2]
      simp only [Bool.false_eq_true, false_iff]
      rintro ⟨-, (h | h | ⟨h, -⟩)⟩ <;> tauto

/-- C3 (amended): `validate` is a total Boolean function (never raises); it
returns true iff the buffer has AT LEAST 8 BYTES and its leading bytes
match a supported magic (3-byte `JWW`/`JWS`, or legacy `Jww`+`Data`); in
particular exact 3- and 7-byte magics are rejected.  Its result depends
only on the buffer length and the first 7 bytes. -/
theorem validate_characterization :
    (∀ buf : List Nat,
      validate buf = true ↔
        8 ≤ buf.length ∧
          (truncAtNul (sliceBytes buf 0 3) = JWW_SIGNATURE ∨
           truncAtNul (sliceBytes buf 0 3) = JWS_SIGNATURE ∨
           (truncAtNul (sliceBytes buf 0 3) = JwwMagic3 ∧
            truncAtNul (sliceBytes buf 3 4) = DataMagic4)))
    ∧ (∀ buf1 buf2 : List Nat, buf1.length = buf2.length →
        buf1.take 7 = buf2.take 7 → validate buf1 = validate buf2) := by
  refine ⟨validate_iff, ?_⟩
  intro buf1 buf2 hlen htake
  have hs03 : sliceBytes buf1 0 3 = sliceBytes buf2 0 3 := by
    unfold sliceBytes
    rw [List.drop_zero, List.drop_zero]
    have h1 : buf1.take 3 = buf2.take 3 := by
      have h2 := congrArg (List.take 3) htake
      simpa [List.take_take] using h2
    rw [h1]
  have hs34 : sliceBytes buf1 3 4 = sliceBytes buf2 3 4 := by
    unfold sliceBytes
    have h1 : (buf1.drop 3).take 4 = (buf2.drop 3).take 4 := by
      have h2 := congrArg (List.drop 3) htake
      rw [List.drop_take, List.drop_take] at h2
      simpa using h2
    rw [h1]
  rw [Bool.eq_iff_iff, validate_iff, validate_iff, hlen, hs03, hs34]

/-- Witness for C3: an 8-byte standard-magic buffer validates; two buffers
agreeing on length and the first 7 bytes validate alike. -/
theorem validate_characterization_witness :
    validate (JWW_SIGNATURE ++ List.replicate 5 0) = true
    ∧ validate [74, 87, 87, 0, 0, 0, 0, 1] = validate [74, 87, 87, 0, 0, 0, 0, 2] :=
  ⟨(validate_characterization.1 (JWW_SIGNATURE ++ List.replicate 5 0)).mpr
      ⟨by decide, by decide⟩,
   validate_characterization.2 [74, 87, 87, 0, 0, 0, 0, 1] [74, 87, 87, 0, 0, 0, 0, 2]
      (by decide) (by decide)⟩

/-! ## Claim C4 -/

/-- C4 counterexample: a 4-byte buffer that even starts with a valid
signature makes `getFileInfo` raise. -/
theorem getFileInfo_raises_counterexample :
    getFileInfo [74, 87, 87, 0] = Except.error eofMsg
    ∧ ([74, 87, 87, 0] : List Nat).length < 5 := ⟨rfl, by decide⟩

/-- C4 (amended): `getFileInfo` reads only the 3-byte signature and the u16
version and reports the buffer byte length as the size — but never raising
holds only for buffers of at least 5 bytes; on shorter buffers the
unguarded reads raise. -/
theorem getFileInfo_characterization (buf : List Nat) :
    (5 ≤ buf.length →
      getFileInfo buf = Except.ok
        { signature := truncAtNul (sliceBytes buf 0 3), version := u16At buf 3,
          fileSize := buf.length })
    ∧ (buf.length < 5 → getFileInfo buf = Except.error eofMsg) := by
  constructor
  · intro h5
    have h : getFileInfoM buf ⟨buf, 0⟩ =
        (Except.ok ({ signature := truncAtNul (sliceBytes buf 0 3)
                      version := u16At buf 3
                      fileSize := buf.length } : FileInfo),
         (⟨buf, 0 + 3 + 2⟩ : Reader)) := by
      unfold getFileInfoM
      refine (M.run_bind_ok (readString_run_ok' (by omega))).trans ?_
      refine (M.run_bind_ok (readUInt16_run_ok' (by omega))).trans ?_
      rfl
    unfold getFileInfo
    rw [h]
  · intro h5
    by_cases h3 : buf.length < 3
    · have h : getFileInfoM buf ⟨buf, 0⟩ = (Except.error eofMsg, ⟨buf, 0⟩) := by
        unfold getFileInfoM
        exact M.run_bind_err (readString_run_err' (by omega))
      unfold getFileInfo
      rw [h]
    · have h : getFileInfoM buf ⟨buf, 0⟩ = (Except.error eofMsg, ⟨buf, 0 + 3⟩) := by
        unfold getFileInfoM
        refine (M.run_bind_ok (readString_run_ok' (by omega))).trans ?_
        exact M.run_bind_err (readUInt16_run_err' (by omega))
      unfold getFileInfo
      rw [h]

/-- Witness for C4's amended theorem at a 5-byte buffer. -/
theorem getFileInfo_characterization_witness :
    getFileInfo [74, 87, 87, 11, 0] =
      Except.ok { signature := [74, 87, 87], version := 11, fileSize := 5 } :=
  ((getFileInfo_characterization [74, 87, 87, 11, 0]).1 (by decide)).trans (by rfl)

/-! ## Claim C8 -/

/-- A text-record payload whose alignment byte is 0x0F: both 2-bit
alignment fields have value 3. -/
def c8buf : List Nat := List.replicate 14 0 ++ [15] ++ List.replicate 32 0 ++ [0, 0]

def c8base : EntityBase :=
  { layer := 0, color := 0, lineType := 0, lineWidth := 0, group := 0 }

/-- The text entity decoded from `c8buf`: both alignment lookups are out of
range, so both fields are `none` (JS `undefined`). -/
def c8text : JwwText :=
  { toEntityBase := c8base, x := toMillimeters 0, y := toMillimeters 0, text := [],
    height := toMillimeters 0, width := toMillimeters 0, angleDeg := 0,
    font := msGothic, horizontalAlign := none, verticalAlign := none }

/-- C8 counterexample: the flag byte 0x0F produces a decoded text entity
whose horizontal and vertical alignments are `undefined` — not members of
left/center/right resp. bottom/middle/top. -/
theorem text_alignment_undefined_counterexample :
    parseText c8base ⟨c8buf, 0⟩ = (Except.ok c8text, ⟨c8buf, 49⟩)
    ∧ c8text.horizontalAlign = none ∧ c8text.verticalAlign = none := ⟨rfl, rfl, rfl⟩

/-- C8 (amended): the alignment byte (offset 14 into the text payload)
selects the alignments by JS array indexing: 2-bit values 0, 1, 2 select
left/center/right resp. bottom/middle/top, but value 3 yields `undefined`
(`none`); so a decoded text entity's horizontalAlign lies in
{left, center, right} exactly when bits 0–1 are not 3, and likewise
vertically for bits 2–3. -/
theorem text_alignment_characterization (base : EntityBase) (buf : List Nat)
    (off : Nat) (t : JwwText) (r1 : Reader)
    (h : parseText base ⟨buf, off⟩ = (Except.ok t, r1)) :
    t.horizontalAlign = hAlignNames.get? (byteAt buf (off + 14) &&& 3)
    ∧ t.verticalAlign = vAlignNames.get? ((byteAt buf (off + 14) >>> 2) &&& 3)
    ∧ (byteAt buf (off + 14) &&& 3 ≠ 3 →
        t.horizontalAlign = some "left" ∨ t.horizontalAlign = some "center" ∨
          t.horizontalAlign = some "right")
    ∧ (byteAt buf (off + 14) &&& 3 = 3 → t.horizontalAlign = none)
    ∧ ((byteAt buf (off + 14) >>> 2) &&& 3 ≠ 3 →
        t.verticalAlign = some "bottom" ∨ t.verticalAlign = some "middle" ∨
          t.verticalAlign = some "top")
    ∧ ((byteAt buf (off + 14) >>> 2) &&& 3 = 3 → t.verticalAlign = none) := by
  unfold parseText at h
  obtain ⟨x, rx, h1, h⟩ := M.bind_ok_elim h
  obtain ⟨hb1, hv1, hr1⟩ := readInt32_ok_elim h1
  subst hr1
  obtain ⟨y, ry, h2, h⟩ := M.bind_ok_elim h
  obtain ⟨hb2, hv2, hr2⟩ := readInt32_ok_elim h2
  subst hr2
  obtain ⟨hgt, rh, h3, h⟩ := M.bind_ok_elim h
  obtain ⟨hb3, hv3, hr3⟩ := readInt16_ok_elim h3
  subst hr3
  obtain ⟨wid, rw2, h4, h⟩ := M.bind_ok_elim h
  obtain ⟨hb4, hv4, hr4⟩ := readInt16_ok_elim h4
  subst hr4
  obtain ⟨ang, ra, h5, h⟩ := M.bind_ok_elim h
  obtain ⟨hb5, hv5, hr5⟩ := readInt16_ok_elim h5
  subst hr5
  obtain ⟨alignFlags, rf, h6, h⟩ := M.bind_ok_elim h
  obtain ⟨hb6, hv6, hr6⟩ := readByte_ok_elim h6
  subst hr6
  subst hv6
  obtain ⟨rawFont, rg, h7, h⟩ := M.bind_ok_elim h
  obtain ⟨hb7, hv7, hr7⟩ := readString_ok_elim h7
  subst hr7
  obtain ⟨textLength, rtl, h8, h⟩ := M.bind_ok_elim h
  obtain ⟨hb8, hv8, hr8⟩ := readUInt16_ok_elim h8
  subst hr8
  obtain ⟨textv, rtx, h9, h⟩ := M.bind_ok_elim h
  obtain ⟨hb9, hv9, hr9⟩ := readString_ok_elim h9
  subst hr9
  obtain ⟨hteq, hreq⟩ := M.pure_ok_elim h
  subst hteq
  refine ⟨rfl, rfl, ?_, ?_, ?_, ?_⟩
  · intro hne
    have hk : byteAt buf (off + 14) &&& 3 ≤ 3 := Nat.and_le_right
    have hcases : byteAt buf (off + 14) &&& 3 = 0 ∨ byteAt buf (off + 14) &&& 3 = 1 ∨
        byteAt buf (off + 14) &&& 3 = 2 := by omega
    rcases hcases with hc | hc | hc
    · exact Or.inl (by
        show hAlignNames.get? (byteAt buf (off + 14) &&& 3) = some "left"
        rw [hc]
        rfl)
    · exact Or.inr (Or.inl (by
        show hAlignNames.get? (byteAt buf (off + 14) &&& 3) = some "center"
        rw [hc]
        rfl))
    · exact Or.inr (Or.inr (by
        show hAlignNames.get? (byteAt buf (off + 14) &&& 3) = some "right"
        rw [hc]
        rfl))
  · intro hc
    show hAlignNames.get? (byteAt buf (off + 14) &&& 3) = none
    rw [hc]
    rfl
  · intro hne
    have hk : (byteAt buf (off + 14) >>> 2) &&& 3 ≤ 3 := Nat.and_le_right
    have hcases : (byteAt buf (off + 14) >>> 2) &&& 3 = 0 ∨
        (byteAt buf (off + 14) >>> 2) &&& 3 = 1 ∨
        (byteAt buf (off + 14) >>> 2) &&& 3 = 2 := by omega
    rcases hcases with hc | hc | hc
    · exact Or.inl (by
        show vAlignNames.get? ((byteAt buf (off + 14) >>> 2) &&& 3) = some "bottom"
        rw [hc]
        rfl)
    · exact Or.inr (Or.inl (by
        show vAlignNames.get? ((byteAt buf (off + 14) >>> 2) &&& 3) = some "middle"
        rw [hc]
        rfl))
    · exact Or.inr (Or.inr (by
        show vAlignNames.get? ((byteAt buf (off + 14) >>> 2) &&& 3) = some "top"
        rw [hc]
        rfl))
  · intro hc
    show vAlignNames.get? ((byteAt buf (off + 14) >>> 2) &&& 3) = none
    rw [hc]
    rfl

/-- A text-record payload whose alignment byte is 6 (bits 0–1 = 2,
bits 2–3 = 1). -/
def c8buf6 : List Nat := List.replicate 14 0 ++ [6] ++ List.replicate 32 0 ++ [0, 0]

/-- The text entity decoded from `c8buf6`. -/
def c8text6 : JwwText :=
  { toEntityBase := c8base, x := toMillimeters 0, y := toMillimeters 0, text := [],
    height := toMillimeters 0, width := toMillimeters 0, angleDeg := 0,
    font := msGothic, horizontalAlign := some "right", verticalAlign := some "middle" }

/-- Witness for C8's amended theorem at flag byte 6. -/
theorem text_alignment_characterization_witness :
    c8text6.horizontalAlign = hAlignNames.get? (byteAt c8buf6 (0 + 14) &&& 3)
    ∧ (c8text6.horizontalAlign = some "left" ∨ c8text6.horizontalAlign = some "center" ∨
        c8text6.horizontalAlign = some "right") := by
  have h := text_alignment_characterization c8base c8buf6 0 c8text6 ⟨c8buf6, 49⟩ (by rfl)
  exact ⟨h.1, h.2.2.1 (by decide)⟩

/-! ## Claim C10 -/

/-- C10 counterexample: `readCString` on a 1-byte buffer without a NUL
terminator succeeds (it does not fail out-of-bounds) and leaves the
position at 2 — one past the end of the buffer — and its consumed width is
content-dependent, not fixed. -/
theorem cstring_past_end_counterexample :
    readCString 256 ⟨[65], 0⟩ = (Except.ok [65], ⟨[65], 2⟩)
    ∧ ([65] : List Nat).length < 2 := ⟨rfl, by decide⟩

/-- The NUL-scan length never exceeds the bytes available from `off`. -/
theorem cstrLen_le (buf : List Nat) : ∀ (m off : Nat),
    cstrLen buf off m ≤ buf.length - off := by
  intro m
  induction m with
  | zero => intro off; simp [cstrLen]
  | succ m ih =>
    intro off
    unfold cstrLen
    split
    · next hcond =>
      have h1 := ih (off + 1)
      omega
    · omega

/-- C10 (amended): every FIXED-WIDTH read (8/16/32-bit integers, 32/64-bit
floats, fixed-length text, raw byte ranges) succeeds iff its width fits in
the remaining buffer, consuming exactly that width; on failure the
position is unchanged.  `skip` obeys the same dichotomy but leaves the
position advanced past the end on failure.  The NUL-terminated read
(`readCString`) is the exception: it never fails, consumes a
content-dependent width (scan + 1), and can leave the position one byte
past the buffer end (never more). -/
theorem cursor_operation_contract :
    (∀ (buf : List Nat) (off : Nat),
      (off + 1 ≤ buf.length → ∃ v, readByte ⟨buf, off⟩ = (Except.ok v, ⟨buf, off + 1⟩))
      ∧ (buf.length < off + 1 → readByte ⟨buf, off⟩ = (Except.error eofMsg, ⟨buf, off⟩)))
    ∧ (∀ (buf : List Nat) (off : Nat),
      (off + 1 ≤ buf.length → ∃ v, readSByte ⟨buf, off⟩ = (Except.ok v, ⟨buf, off + 1⟩))
      ∧ (buf.length < off + 1 → readSByte ⟨buf, off⟩ = (Except.error eofMsg, ⟨buf, off⟩)))
    ∧ (∀ (buf : List Nat) (off : Nat),
      (off + 2 ≤ buf.length → ∃ v, readUInt16 ⟨buf, off⟩ = (Except.ok v, ⟨buf, off + 2⟩))
      ∧ (buf.length < off + 2 → readUInt16 ⟨buf, off⟩ = (Except.error eofMsg, ⟨buf, off⟩)))
    ∧ (∀ (buf : List Nat) (off : Nat),
      (off + 2 ≤ buf.length → ∃ v, readInt16 ⟨buf, off⟩ = (Except.ok v, ⟨buf, off + 2⟩))
      ∧ (buf.length < off + 2 → readInt16 ⟨buf, off⟩ = (Except.error eofMsg, ⟨buf, off⟩)))
    ∧ (∀ (buf : List Nat) (off : Nat),
      (off + 4 ≤ buf.length → ∃ v, readUInt32 ⟨buf, off⟩ = (Except.ok v, ⟨buf, off + 4⟩))
      ∧ (buf.length < off + 4 → readUInt32 ⟨buf, off⟩ = (Except.error eofMsg, ⟨buf, off⟩)))
    ∧ (∀ (buf : List Nat) (off : Nat),
      (off + 4 ≤ buf.length → ∃ v, readInt32 ⟨buf, off⟩ = (Except.ok v, ⟨buf, off + 4⟩))
      ∧ (buf.length < off + 4 → readInt32 ⟨buf, off⟩ = (Except.error eofMsg, ⟨buf, off⟩)))
    ∧ (∀ (buf : List Nat) (off : Nat),
      (off + 4 ≤ buf.length → ∃ v, readFloat ⟨buf, off⟩ = (Except.ok v, ⟨buf, off + 4⟩))
      ∧ (buf.length < off + 4 → readFloat ⟨buf, off⟩ = (Except.error eofMsg, ⟨buf, off⟩)))
    ∧ (∀ (buf : List Nat) (off : Nat),
      (off + 8 ≤ buf.length → ∃ v, readDouble ⟨buf, off⟩ = (Except.ok v, ⟨buf, off + 8⟩))
      ∧ (buf.length < off + 8 → readDouble ⟨buf, off⟩ = (Except.error eofMsg, ⟨buf, off⟩)))
    ∧ (∀ (buf : List Nat) (off n : Nat),
      (off + n ≤ buf.length → ∃ v, readString n ⟨buf, off⟩ = (Except.ok v, ⟨buf, off + n⟩))
      ∧ (buf.length < off + n → readString n ⟨buf, off⟩ = (Except.error eofMsg, ⟨buf, off⟩)))
    ∧ (∀ (buf : List Nat) (off n : Nat),
      (off + n ≤ buf.length → ∃ v, readBytes n ⟨buf, off⟩ = (Except.ok v, ⟨buf, off + n⟩))
      ∧ (buf.length < off + n → readBytes n ⟨buf, off⟩ = (Except.error eofMsg, ⟨buf, off⟩)))
    ∧ (∀ (buf : List Nat) (off : Nat) (n : Int),
      ((off : Int) + n ≤ (buf.length : Int) →
        skip n ⟨buf, off⟩ = (Except.ok (), ⟨buf, ((off : Int) + n).toNat⟩))
      ∧ ((buf.length : Int) < (off : Int) + n →
        skip n ⟨buf, off⟩ = (Except.error eofMsg, ⟨buf, ((off : Int) + n).toNat⟩)))
    ∧ (∀ (buf : List Nat) (off m : Nat), ∃ v,
        readCString m ⟨buf, off⟩ = (Except.ok v, ⟨buf, off + cstrLen buf off m + 1⟩))
    ∧ (∀ (buf : List Nat) (off m : Nat), off ≤ buf.length →
        off + cstrLen buf off m + 1 ≤ buf.length + 1) := by
  refine ⟨?_, ?_, ?_, ?_, ?_, ?_, ?_, ?_, ?_, ?_, ?_, ?_, ?_⟩
  · intro buf off
    constructor
    · intro h
      exact ⟨_, by unfold readByte; dsimp only; rw [if_neg (by omega)]⟩
    · intro h
      unfold readByte; dsimp only; rw [if_pos (by omega)]
  · intro buf off
    constructor
    · intro h
      exact ⟨_, by unfold readSByte; dsimp only; rw [if_neg (by omega)]⟩
    · intro h
      unfold readSByte; dsimp only; rw [if_pos (by omega)]
  · intro buf off
    constructor
    · intro h
      exact ⟨_, by unfold readUInt16; dsimp only; rw [if_neg (by omega)]⟩
    · intro h
      unfold readUInt16; dsimp only; rw [if_pos (by omega)]
  · intro buf off
    constructor
    · intro h
      exact ⟨_, by unfold readInt16; dsimp only; rw [if_neg (by omega)]⟩
    · intro h
      unfold readInt16; dsimp only; rw [if_pos (by omega)]
  · intro buf off
    constructor
    · intro h
      exact ⟨_, by unfold readUInt32; dsimp only; rw [if_neg (by omega)]⟩
    · intro h
      unfold readUInt32; dsimp only; rw [if_pos (by omega)]
  · intro buf off
    constructor
    · intro h
      exact ⟨_, by unfold readInt32; dsimp only; rw [if_neg (by omega)]⟩
    · intro h
      unfold readInt32; dsimp only; rw [if_pos (by omega)]
  · intro buf off
    constructor
    · intro h
      exact ⟨_, by unfold readFloat; dsimp only; rw [if_neg (by omega)]⟩
    · intro h
      unfold readFloat; dsimp only; rw [if_pos (by omega)]
  · intro buf off
    constructor
    · intro h
      exact ⟨_, by unfold readDouble; dsimp only; rw [if_neg (by omega)]⟩
    · intro h
      unfold readDouble; dsimp only; rw [if_pos (by omega)]
  · intro buf off n
    constructor
    · intro h
      exact ⟨_, by unfold readString; dsimp only; rw [if_neg (by omega)]⟩
    · intro h
      unfold readString; dsimp only; rw [if_pos (by omega)]
  · intro buf off n
    constructor
    · intro h
      exact ⟨_, by unfold readBytes; dsimp only; rw [if_neg (by omega)]⟩
    · intro h
      unfold readBytes; dsimp only; rw [if_pos (by omega)]
  · intro buf off n
    constructor
    · intro h
      unfold skip; dsimp only; rw [if_neg (by omega)]
    · intro h
      unfold skip; dsimp only; rw [if_pos (by omega)]
  · intro buf off m
    exact ⟨_, rfl⟩
  · intro buf off m h
    have h1 := cstrLen_le buf m off
    omega

/-- Witness for C10's amended theorem: a byte read that fits, a 16-bit read
that does not, a skip past the end, and a NUL-terminated read. -/
theorem cursor_operation_contract_witness :
    (∃ v, readByte ⟨[7], 0⟩ = (Except.ok v, ⟨[7], 0 + 1⟩))
    ∧ readUInt16 ⟨[7], 0⟩ = (Except.error eofMsg, ⟨[7], 0⟩)
    ∧ skip 3 ⟨[7], 0⟩ = (Except.error eofMsg, ⟨[7], ((0 : Int) + 3).toNat⟩)
    ∧ (∃ v, readCString 256 ⟨[65], 0⟩ =
        (Except.ok v, ⟨[65], 0 + cstrLen [65] 0 256 + 1⟩)) :=
  ⟨(cursor_operation_contract.1 [7] 0).1 (by decide),
   (cursor_operation_contract.2.2.1 [7] 0).2 (by decide),
   (cursor_operation_contract.2.2.2.2.2.2.2.2.2.2.1 [7] 0 3).2 (by decide),
   cursor_operation_contract.2.2.2.2.2.2.2.2.2.2.2.1 [65] 0 256⟩

end JwwWeb
